import Mathlib

/-!
Shallow embedding of `markdown2html.py`: a line-oriented Markdown-to-HTML
converter.  The inline transforms (`bold_emphasis`, `text_to_md5`,
`remove_c`, `process_line`) are pure functions on strings; the block state
machine of `__main__` is embedded as a step function on an explicit state
record, with the output sink modelled as a list of written fragments and a
Python `IndexError` modelled as an `Option`-failure (`none` state).
Python byte strings and MD5 are embedded over `List Nat` with arithmetic
taken mod 2^32.
-/

namespace Md2Html

/-- Embedding of Python `''.join(parts)`: concatenation of the parts in order. -/
def joinAll : List String → String
  | [] => ""
  | s :: rest => s ++ joinAll rest

/-- Embedding of Python `s.startswith(pre)` (both arguments as code-point lists). -/
def strStarts (s pre : String) : Bool := pre.toList.isPrefixOf s.toList

/-- Embedding of Python `s.strip()`: remove leading and trailing whitespace
(restricted to the ASCII whitespace of `Char.isWhitespace`, which covers the
inputs of interest). -/
def pyStrip (s : String) : String :=
  ((s.toList.dropWhile Char.isWhitespace).reverse.dropWhile
    Char.isWhitespace).reverse.asString

/-- Left-to-right scan for Python `str.split(sep)`: cut at every leftmost
non-overlapping occurrence of `sep`.  The `fuel` argument (called with the
length of the list) only makes the recursion structural; it never runs out. -/
def pySplitAux (sep : List Char) : Nat → List Char → List Char → List (List Char)
  | _, [], acc => [acc.reverse]
  | 0, l, acc => [acc.reverse ++ l]
  | fuel + 1, c :: rest, acc =>
    if sep.isPrefixOf (c :: rest) then
      acc.reverse :: pySplitAux sep fuel (rest.drop (sep.length - 1)) []
    else pySplitAux sep fuel rest (c :: acc)

/-- Embedding of Python `s.split(sep)` for nonempty `sep`: the segments of `s`
between consecutive non-overlapping occurrences of `sep`. -/
def pySplit (s sep : String) : List String :=
  (pySplitAux sep.toList s.toList.length s.toList []).map List.asString

/-- HTML tag wrapping, as in the f-string of `bold_emphasis`. -/
def wrapTag (tag s : String) : String := "<" ++ tag ++ ">" ++ s ++ "</" ++ tag ++ ">"

/-- Index-carrying map, embedding the `for index in range(...)` rewrite of the
parts list in `bold_emphasis` (function applied at each position, starting at
index `i`). -/
def mapWithIndex (f : Nat → String → String) : Nat → List String → List String
  | _, [] => []
  | i, p :: rest => f i p :: mapWithIndex f (i + 1) rest

/-- Embedding of `bold_emphasis(line, markdown)` from `markdown2html.py`:
split on every occurrence of the delimiter, wrap the odd-indexed parts in
`<b>`/`<em>`, and join. -/
def bold_emphasis (line markdown : String) : String :=
  let parts := pySplit line markdown
  let tag := if markdown = "**" then "b" else "em"
  joinAll (mapWithIndex (fun index p => if index % 2 = 1 then wrapTag tag p else p) 0 parts)

/-! ### MD5 (embedding of Python `hashlib.md5(...).hexdigest()`)

Implemented from RFC 1321 over byte lists, with 32-bit words as `Nat` reduced
mod `2^32`. -/

def MOD32 : Nat := 4294967296

def not32 (x : Nat) : Nat := Nat.xor x (MOD32 - 1)

def rotl32 (x n : Nat) : Nat :=
  Nat.lor ((x <<< n) % MOD32) (x >>> (32 - n))

/-- The 64 round constants `floor(2^32 * abs(sin(i+1)))` of RFC 1321. -/
def kTable : List Nat :=
  [0xd76aa478, 0xe8c7b756, 0x242070db, 0xc1bdceee,
   0xf57c0faf, 0x4787c62a, 0xa8304613, 0xfd469501,
   0x698098d8, 0x8b44f7af, 0xffff5bb1, 0x895cd7be,
   0x6b901122, 0xfd987193, 0xa679438e, 0x49b40821,
   0xf61e2562, 0xc040b340, 0x265e5a51, 0xe9b6c7aa,
   0xd62f105d, 0x02441453, 0xd8a1e681, 0xe7d3fbc8,
   0x21e1cde6, 0xc33707d6, 0xf4d50d87, 0x455a14ed,
   0xa9e3e905, 0xfcefa3f8, 0x676f02d9, 0x8d2a4c8a,
   0xfffa3942, 0x8771f681, 0x6d9d6122, 0xfde5380c,
   0xa4beea44, 0x4bdecfa9, 0xf6bb4b60, 0xbebfbc70,
   0x289b7ec6, 0xeaa127fa, 0xd4ef3085, 0x04881d05,
   0xd9d4d039, 0xe6db99e5, 0x1fa27cf8, 0xc4ac5665,
   0xf4292244, 0x432aff97, 0xab9423a7, 0xfc93a039,
   0x655b59c3, 0x8f0ccc92, 0xffeff47d, 0x85845dd1,
   0x6fa87e4f, 0xfe2ce6e0, 0xa3014314, 0x4e0811a1,
   0xf7537e82, 0xbd3af235, 0x2ad7d2bb, 0xeb86d391]

/-- The per-round left-rotation amounts of RFC 1321. -/
def sTable : List Nat :=
  [7, 12, 17, 22, 7, 12, 17, 22, 7, 12, 17, 22, 7, 12, 17, 22,
   5, 9, 14, 20, 5, 9, 14, 20, 5, 9, 14, 20, 5, 9, 14, 20,
   4, 11, 16, 23, 4, 11, 16, 23, 4, 11, 16, 23, 4, 11, 16, 23,
   6, 10, 15, 21, 6, 10, 15, 21, 6, 10, 15, 21, 6, 10, 15, 21]

/-- The nonlinear function of round `i`. -/
def md5F (i b c d : Nat) : Nat :=
  if i < 16 then Nat.lor (Nat.land b c) (Nat.land (not32 b) d)
  else if i < 32 then Nat.lor (Nat.land d b) (Nat.land (not32 d) c)
  else if i < 48 then Nat.xor b (Nat.xor c d)
  else Nat.xor c (Nat.lor b (not32 d))

/-- The message-word index used in round `i`. -/
def md5g (i : Nat) : Nat :=
  if i < 16 then i
  else if i < 32 then (5 * i + 1) % 16
  else if i < 48 then (3 * i + 5) % 16
  else (7 * i) % 16

/-- 64 bytes into 16 little-endian 32-bit words. -/
def toWords : List Nat → List Nat
  | b0 :: b1 :: b2 :: b3 :: rest =>
    (b0 + 256 * b1 + 65536 * b2 + 16777216 * b3) :: toWords rest
  | _ => []

/-- One MD5 round on state `(a, b, c, d)`. -/
def md5round (m : List Nat) (st : Nat × Nat × Nat × Nat) (i : Nat) :
    Nat × Nat × Nat × Nat :=
  let (a, b, c, d) := st
  let f := (md5F i b c d + a + kTable.getD i 0 + m.getD (md5g i) 0) % MOD32
  (d, (b + rotl32 f (sTable.getD i 0)) % MOD32, b, c)

/-- Process one 64-byte block. -/
def md5block (st : Nat × Nat × Nat × Nat) (block : List Nat) :
    Nat × Nat × Nat × Nat :=
  let m := toWords block
  let (a, b, c, d) := (List.range 64).foldl (md5round m) st
  ((st.1 + a) % MOD32, (st.2.1 + b) % MOD32, (st.2.2.1 + c) % MOD32,
   (st.2.2.2 + d) % MOD32)

/-- Process `n` consecutive 64-byte blocks. -/
def md5blocks (st : Nat × Nat × Nat × Nat) (msg : List Nat) : Nat → Nat × Nat × Nat × Nat
  | 0 => st
  | n + 1 => md5blocks (md5block st (msg.take 64)) (msg.drop 64) n

/-- MD5 padding: a `0x80` byte, zeros to 56 mod 64, then the bit length as
8 little-endian bytes. -/
def md5pad (msg : List Nat) : List Nat :=
  let len := msg.length
  let zeros := (119 - len % 64) % 64
  let bitlen := (len * 8) % (2 ^ 64)
  msg ++ [128] ++ List.replicate zeros 0 ++
    (List.range 8).map (fun i => (bitlen >>> (8 * i)) % 256)

def hexDigit (n : Nat) : Char :=
  if n < 10 then Char.ofNat (48 + n) else Char.ofNat (87 + n)

def byteHex (b : Nat) : String :=
  String.mk [hexDigit (b / 16), hexDigit (b % 16)]

/-- A 32-bit word as 8 lowercase hex digits, little-endian byte order. -/
def wordLEhex (w : Nat) : String :=
  byteHex (w % 256) ++ byteHex ((w >>> 8) % 256) ++
  byteHex ((w >>> 16) % 256) ++ byteHex ((w >>> 24) % 256)

/-- The full MD5 hex digest of a byte list, embedding
`hashlib.md5(bytes).hexdigest()`. -/
def md5hex (msg : List Nat) : String :=
  let padded := md5pad msg
  let final := md5blocks (0x67452301, 0xefcdab89, 0x98badcfe, 0x10325476)
    padded (padded.length / 64)
  wordLEhex final.1 ++ wordLEhex final.2.1 ++ wordLEhex final.2.2.1 ++
    wordLEhex final.2.2.2

/-- UTF-8 bytes of one character, embedding Python `str.encode()` per char. -/
def utf8Bytes (c : Char) : List Nat :=
  let n := c.toNat
  if n < 128 then [n]
  else if n < 2048 then [192 + n / 64, 128 + n % 64]
  else if n < 65536 then [224 + n / 4096, 128 + n / 64 % 64, 128 + n % 64]
  else [240 + n / 262144, 128 + n / 4096 % 64, 128 + n / 64 % 64, 128 + n % 64]

/-- Embedding of Python `text.encode()` (UTF-8 bytes of the string). -/
def strBytes (s : String) : List Nat := (s.toList.map utf8Bytes).flatten

/-- Index of the first occurrence of `sub` in a char list, embedding Python
`text.find(sub)` in the case where the substring is present (`none` exactly
when `sub` does not occur, i.e. Python `find` would return -1 and the guarding
`in` test would be false). -/
def findSub (sub : List Char) : List Char → Option Nat
  | [] => if sub.isPrefixOf ([] : List Char) then some 0 else none
  | c :: rest =>
    if sub.isPrefixOf (c :: rest) then some 0
    else (findSub sub rest).map (fun n => n + 1)

/-- Embedding of `text_to_md5(text)` from `markdown2html.py`: if both `[[` and
`]]` occur, replace `text[opening : closing+2]` by the MD5 hex digest of
`text[opening+2 : closing]`. -/
def text_to_md5 (text : String) : String :=
  let l := text.toList
  match findSub ['[', '['] l, findSub [']', ']'] l with
  | some opening, some closing =>
    let to_md5 := ((l.drop (opening + 2)).take (closing - (opening + 2))).asString
    let hash_text := md5hex (strBytes to_md5)
    (l.take opening).asString ++ hash_text ++ (l.drop (closing + 2)).asString
  | _, _ => text

/-- Embedding of `remove_c(text)` from `markdown2html.py`: if both `((` and
`))` occur, remove every `C` and `c` from `text[opening+2 : closing]` and
splice the result in place of the delimited span. -/
def remove_c (text : String) : String :=
  let l := text.toList
  match findSub ['(', '('] l, findSub [')', ')'] l with
  | some opening, some closing =>
    let to_replace := (l.drop (opening + 2)).take (closing - (opening + 2))
    let replaced := (to_replace.filter (fun c => c ≠ 'C')).filter (fun c => c ≠ 'c')
    (l.take opening).asString ++ replaced.asString ++ (l.drop (closing + 2)).asString
  | _, _ => text

/-- Embedding of `process_line(line)`: bold, then emphasis, then MD5
substitution, then `C`/`c` removal. -/
def process_line (line : String) : String :=
  remove_c (text_to_md5 (bold_emphasis (bold_emphasis line "**") "__"))

/-! ### The block state machine of `__main__`

The mutable variables `list_started`, `paragraph_started`, `list_type` become
a state record; each `htmlfile.write(...)` becomes one element appended to an
output list; the unguarded `line[count]` indexing becomes a `List.get?` whose
`none` case models the Python `IndexError` (the step returns no successor
state and processing of the document stops, skipping the end flush, exactly
as the uncaught exception would). -/

structure MDState where
  list_started : Bool
  paragraph_started : Bool
  list_type : String
deriving DecidableEq, Repr

/-- The state at the top of `__main__`: nothing open, `list_type = ''`. -/
def initState : MDState := ⟨false, false, ""⟩

/-- The two conditional closes at the top of the heading branch: close an open
list, then close an open paragraph. -/
def closeBlocks (st : MDState) : List String :=
  (if st.list_started then ["</" ++ st.list_type ++ ">\n"] else []) ++
  (if st.paragraph_started then ["</p>\n"] else [])

/-- Embedding of Python `line.isspace()` (nonempty and all whitespace;
restricted to the ASCII whitespace recognised by `Char.isWhitespace`, which
covers the inputs of interest). -/
def pyIsSpace (s : String) : Bool :=
  !s.toList.isEmpty && s.toList.all Char.isWhitespace

/-- Embedding of `line and line[0].isalpha()` (nonempty and first character
alphabetic; `Char.isAlpha` models the ASCII fragment of Python's Unicode
`isalpha`). -/
def startsAlpha (s : String) : Bool :=
  match s.toList with
  | [] => false
  | c :: _ => c.isAlpha

/-- The guard of the paragraph branch of `__main__`. -/
def paragraphEligible (line : String) : Bool :=
  startsAlpha line || pyIsSpace line || strStarts line "**" ||
    strStarts line "__" || strStarts line "((" || strStarts line "[["

/-- The heading branch (`if line.startswith('#')`): close open blocks, strip,
count leading `#`; then Python indexes `line[count]` without a bounds check,
so `count == len(line)` raises `IndexError` (modelled as a `none` state). -/
def stepHeading (st : MDState) (line : String) : List String × Option MDState :=
  let outClose := closeBlocks st
  let st1 : MDState := ⟨false, false, st.list_type⟩
  let stripped := pyStrip line
  let count := (stripped.toList.takeWhile (fun c => c = '#')).length
  match stripped.toList.get? count with
  | none => (outClose, none)
  | some c =>
    if c = ' ' then
      let text := stripped.drop (count + 1)
      let head_text := process_line text
      (outClose ++
        ["<h" ++ toString count ++ ">" ++ head_text ++ "</h" ++
          toString count ++ ">\n"], some st1)
    else (outClose, some st1)

/-- The list branch (`elif line.startswith('- ') or line.startswith('* ')`):
close an open paragraph, strip the line, pick the list kind from the stripped
line (keeping the old `list_type` if neither prefix survives stripping), open
the list wrapper if none is open, and emit the `<li>` item. -/
def stepList (st : MDState) (line : String) : List String × Option MDState :=
  let outP := if st.paragraph_started then ["</p>\n"] else []
  let stripped := pyStrip line
  let lt := if strStarts stripped "- " then "ul"
    else if strStarts stripped "* " then "ol"
    else st.list_type
  let text := stripped.drop 2
  let outOpen := if st.list_started then [] else ["<" ++ lt ++ ">\n"]
  let list_text := process_line text
  (outP ++ outOpen ++ ["<li>" ++ list_text ++ "</li>\n"], some ⟨true, false, lt⟩)

/-- The paragraph branch: close an open list; open/close/continue the
paragraph according to `paragraph_started` and `line.isspace()`; then always
write the processed stripped line (possibly the empty string). -/
def stepParagraph (st : MDState) (line : String) : List String × Option MDState :=
  let outL := if st.list_started then ["</" ++ st.list_type ++ ">\n"] else []
  let pOut :=
    if !st.paragraph_started then
      if !pyIsSpace line then (["<p>\n"], true) else (([] : List String), false)
    else
      if pyIsSpace line then (["\n</p>\n"], false) else (["\n<br/>\n"], true)
  let paragraph_text := process_line (pyStrip line)
  (outL ++ pOut.1 ++ [paragraph_text], some ⟨false, pOut.2, st.list_type⟩)

/-- One iteration of the `for line in mdfile` loop: the `if/elif/elif` chain,
with a silent fall-through when no branch matches. -/
def step (st : MDState) (line : String) : List String × Option MDState :=
  if strStarts line "#" then stepHeading st line
  else if strStarts line "- " || strStarts line "* " then stepList st line
  else if paragraphEligible line then stepParagraph st line
  else ([], some st)

/-- Run the loop over a list of lines, accumulating all writes; stops (with
the writes made so far) if a line raises. -/
def runLines (st : MDState) : List String → List String × Option MDState
  | [] => ([], some st)
  | l :: ls =>
    match step st l with
    | (out, none) => (out, none)
    | (out, some st1) =>
      let rest := runLines st1 ls
      (out ++ rest.1, rest.2)

/-- The end-of-document flush after the loop: close an open list, then close
an open paragraph (the paragraph close here is written as `\n</p>\n`). -/
def flushBlocks (st : MDState) : List String :=
  (if st.list_started then ["</" ++ st.list_type ++ ">\n"] else []) ++
  (if st.paragraph_started then ["\n</p>\n"] else [])

/-- Full conversion of a document (its list of lines, line terminators
included): the joined text appended to the output file, or `none` if the loop
raised (in which case the flush never runs). -/
def convert_document (lines : List String) : Option String :=
  match runLines initState lines with
  | (_, none) => none
  | (out, some st) => some (joinAll (out ++ flushBlocks st))

/-- Invariant of claim C8: at most one of the two open-block flags. -/
def atMostOne (st : MDState) : Bool := !(st.list_started && st.paragraph_started)

/-- The states reached at the top of each loop iteration (starting from `st`),
up to and including the state after the last processed line; stops at the
state whose line raises. -/
def traceStates (st : MDState) : List String → List MDState
  | [] => [st]
  | l :: ls =>
    match (step st l).2 with
    | none => [st]
    | some st1 => st :: traceStates st1 ls

/-- All states a run of the program passes through, including (when the loop
completes) the conceptual state after the end-of-document flush, in which
both flags are cleared. -/
def runTrace (lines : List String) : List MDState :=
  match runLines initState lines with
  | (_, none) => traceStates initState lines
  | (_, some st) => traceStates initState lines ++ [⟨false, false, st.list_type⟩]

/-- Observable outcome of one program invocation: exit status, writes to
stderr, writes appended to the output file. -/
structure RunResult where
  exitCode : Nat
  errOut : List String
  htmlOut : List String
deriving DecidableEq, Repr

/-- Embedding of the `__main__` entry: `args` is `sys.argv[1:]`, `isfile`
models `os.path.isfile`, `contents` the lines of the input file (consulted
only after the two pre-flight checks pass).  An uncaught `IndexError` from
the loop terminates the interpreter with a nonzero status. -/
def main_model (args : List String) (isfile : String → Bool)
    (contents : List String) : RunResult :=
  if args.length < 2 then
    ⟨1, ["Usage: ./markdown2html.py README.md README.html"], []⟩
  else
    let markdown_file := args.headD ""
    if !isfile markdown_file then
      ⟨1, ["Missing " ++ markdown_file], []⟩
    else
      match runLines initState contents with
      | (out, none) => ⟨1, ["Traceback: IndexError: string index out of range"], out⟩
      | (out, some st) => ⟨0, [], out ++ flushBlocks st⟩

/-! ### Specification-side definitions

`pairWrap` follows the words of the specification's `applyPairedMarkup`
description (content between the 1st/2nd, 3rd/4th, ... delimiter occurrences
is wrapped), to be compared with the source-derived `bold_emphasis`. -/

/-- Wrapping of alternating split segments, pairing them up from the first
delimiter occurrence: the segment between the 1st and 2nd occurrence is
wrapped, between the 3rd and 4th, and so on; a segment left over after the
pairing is emitted as is. -/
def pairWrap (tag : String) : List String → String
  | [] => ""
  | [a] => a
  | a :: b :: rest => a ++ wrapTag tag b ++ pairWrap tag rest

/-! ### Helper lemmas -/

/-- The wrap-odd-indices pass of `bold_emphasis`, started at any even index,
computes exactly the pairing rewrite `pairWrap`. -/
theorem joinAll_mapWithIndex_even (tag : String) :
    ∀ (l : List String) (i : Nat), i % 2 = 0 →
      joinAll (mapWithIndex
        (fun index p => if index % 2 = 1 then wrapTag tag p else p) i l) =
        pairWrap tag l
  | [], _, _ => rfl
  | [a], i, h => by
    simp [mapWithIndex, joinAll, pairWrap, h, String.append_empty]
  | a :: b :: rest, i, h => by
    have h1 : (i + 1) % 2 = 1 := by omega
    have h2 : (i + 2) % 2 = 0 := by omega
    have ih := joinAll_mapWithIndex_even tag rest (i + 2) h2
    simp [mapWithIndex, joinAll, pairWrap, h, h1, ih, String.append_assoc]

theorem isPrefixOf_head_ne (a c : Char) (t rest : List Char) (h : ¬a = c) :
    List.isPrefixOf (a :: t) (c :: rest) = false := by
  simp [List.isPrefixOf, h]

theorem isPrefixOf_snd_ne (a b c d : Char) (t rest : List Char) (h : ¬b = d) :
    List.isPrefixOf (a :: b :: t) (c :: d :: rest) = false := by
  simp [List.isPrefixOf, h]

theorem listStart_not_hash (line : String)
    (h : (strStarts line "- " || strStarts line "* ") = true) :
    strStarts line "#" = false := by
  unfold strStarts at h ⊢
  rcases hl : line.toList with _ | ⟨c, rest⟩ <;> rw [hl] at h
  · simp [List.isPrefixOf] at h
  · simp only [List.isPrefixOf, Bool.or_eq_true, Bool.and_eq_true, beq_iff_eq] at h
    rcases h with ⟨hc, _⟩ | ⟨hc, _⟩ <;>
      simp [List.isPrefixOf, ← hc]

theorem eligible_excludes (line : String) (h : paragraphEligible line = true) :
    strStarts line "#" = false ∧ strStarts line "- " = false ∧
      strStarts line "* " = false := by
  obtain ⟨l⟩ := line
  unfold paragraphEligible startsAlpha pyIsSpace at h
  unfold strStarts at h ⊢
  have e1 : "#".toList = ['#'] := rfl
  have e2 : "- ".toList = ['-', ' '] := rfl
  have e3 : "* ".toList = ['*', ' '] := rfl
  have e4 : "**".toList = ['*', '*'] := rfl
  have e5 : "__".toList = ['_', '_'] := rfl
  have e6 : "((".toList = ['(', '('] := rfl
  have e7 : "[[".toList = ['[', '['] := rfl
  rw [e1, e2, e3]
  rw [e4, e5, e6, e7] at h
  dsimp only [String.toList] at h ⊢
  rcases l with _ | ⟨c, rest⟩
  · simp [List.isPrefixOf] at h
  · have hsum : c.isAlpha = true ∨ c.isWhitespace = true ∨
        (c = '*' ∧ List.isPrefixOf ['*'] rest = true) ∨ c = '_' ∨ c = '(' ∨ c = '[' := by
      simp only [Bool.or_eq_true, Bool.and_eq_true, List.isPrefixOf, beq_iff_eq,
        List.isEmpty_cons, Bool.not_false, Bool.true_and, List.all_cons] at h
      rcases h with ((((h1 | ⟨h2, _⟩) | ⟨h3a, h3b⟩) | ⟨h4, _⟩) | ⟨h5, _⟩) | ⟨h6, _⟩
      · exact Or.inl h1
      · exact Or.inr (Or.inl h2)
      · exact Or.inr (Or.inr (Or.inl ⟨h3a.symm, h3b⟩))
      · exact Or.inr (Or.inr (Or.inr (Or.inl h4.symm)))
      · exact Or.inr (Or.inr (Or.inr (Or.inr (Or.inl h5.symm))))
      · exact Or.inr (Or.inr (Or.inr (Or.inr (Or.inr h6.symm))))
    have hne : ∀ a : Char, a.isAlpha = false → a.isWhitespace = false →
        ¬a = '*' → ¬a = '_' → ¬a = '(' → ¬a = '[' → ¬c = a := by
      intro a ha1 ha2 ha3 ha4 ha5 ha6 hca
      subst hca
      rcases hsum with hh | hh | ⟨hh, _⟩ | hh | hh | hh
      · rw [ha1] at hh; exact Bool.false_ne_true hh
      · rw [ha2] at hh; exact Bool.false_ne_true hh
      · exact ha3 hh
      · exact ha4 hh
      · exact ha5 hh
      · exact ha6 hh
    refine ⟨?_, ?_, ?_⟩
    · exact isPrefixOf_head_ne _ _ _ _ fun hh => hne '#' (by decide) (by decide)
        (by decide) (by decide) (by decide) (by decide) hh.symm
    · exact isPrefixOf_head_ne _ _ _ _ fun hh => hne '-' (by decide) (by decide)
        (by decide) (by decide) (by decide) (by decide) hh.symm
    · by_cases hc : c = '*'
      · subst hc
        rcases hsum with hh | hh | ⟨-, hh⟩ | hh | hh | hh
        · exact absurd hh (by decide)
        · exact absurd hh (by decide)
        · rcases rest with _ | ⟨r, rs⟩
          · simp [List.isPrefixOf] at hh
          · simp only [List.isPrefixOf, Bool.and_eq_true, beq_iff_eq] at hh
            exact isPrefixOf_snd_ne _ _ _ _ _ _ (by rw [← hh.1]; decide)
        · exact absurd hh (by decide)
        · exact absurd hh (by decide)
        · exact absurd hh (by decide)
      · exact isPrefixOf_head_ne _ _ _ _ fun hh => hc hh.symm

theorem step_atMostOne (st : MDState) (l : String) (st1 : MDState)
    (hinv : atMostOne st = true) (hstep : (step st l).2 = some st1) :
    atMostOne st1 = true := by
  unfold step stepHeading stepList stepParagraph at hstep
  dsimp only at hstep
  repeat' split at hstep
  all_goals first
    | (cases hstep; simp_all [atMostOne])
    | simp_all [atMostOne]

theorem traceStates_all_atMostOne :
    ∀ (ls : List String) (st : MDState), atMostOne st = true →
      (traceStates st ls).all atMostOne = true
  | [], st, h => by simp [traceStates, h]
  | l :: ls, st, h => by
    unfold traceStates
    cases hg : (step st l).2 with
    | none => simp [h]
    | some st1 =>
      have ih := traceStates_all_atMostOne ls st1 (step_atMostOne st l st1 h hg)
      simp [h, ih]

/-! ### Claim theorems -/

/-- C1 (code_bug): the specification demands that a line whose leading run of
`#` characters is not followed by a space must not crash and must emit no
heading; but when the stripped line consists only of `#` characters (or of
`#` followed only by whitespace), the code evaluates `line[count]` with
`count == len(line)` and raises `IndexError`.  The converter aborts (`none`)
on the one-line documents `"#\n"`, `"###\n"` and `"# \n"`. -/
theorem c1_hash_run_without_space_crashes :
    convert_document ["#\n"] = none ∧ convert_document ["###\n"] = none ∧
    convert_document ["# \n"] = none := ⟨by decide, by decide, by decide⟩

/-- C2 counterexample: on `"a**b"` the delimiter `**` occurs once (an odd
number of times), yet `bold_emphasis` wraps the final unmatched segment `"b"`
in `<b>` tags; under the claim (only content between paired occurrences is
wrapped) the result would have kept `"b"` unwrapped, i.e. been `"a**b"` or
`"ab"`. -/
theorem c2_odd_delimiter_counterexample :
    bold_emphasis "a**b" "**" = "a" ++ wrapTag "b" "b" ∧
    "a" ++ wrapTag "b" "b" ≠ "a**b" ∧ "a" ++ wrapTag "b" "b" ≠ "ab" :=
  ⟨by decide, by decide, by decide⟩

/-- C2 amended: for either delimiter, `bold_emphasis` performs the alternating
pairing rewrite of the split segments (`pairWrap`): segments after the 1st,
3rd, ... delimiter occurrence are wrapped, so when the delimiter occurs an odd
number of times the final segment after the last occurrence is wrapped as
well, not left unwrapped; no error is ever raised (the function is total). -/
theorem c2_amended_pair_wrapping : ∀ (line markdown : String),
    markdown = "**" ∨ markdown = "__" →
    bold_emphasis line markdown =
      pairWrap (if markdown = "**" then "b" else "em") (pySplit line markdown) :=
  fun line markdown _ => joinAll_mapWithIndex_even _ (pySplit line markdown) 0 rfl

/-- Witness for C2 amended at `line = "a**b"`, `markdown = "**"`. -/
theorem c2_amended_pair_wrapping_witness : ("**" = "**" ∨ "**" = "__") ∧
    bold_emphasis "a**b" "**" =
      pairWrap (if "**" = "**" then "b" else "em") (pySplit "a**b" "**") :=
  ⟨Or.inl rfl, c2_amended_pair_wrapping "a**b" "**" (Or.inl rfl)⟩

/-- C3 counterexample: with a paragraph open, the line `"#x\n"` (a `#`-run not
followed by a space, so matching none of the three classes) emits `</p>` and
clears the paragraph flag, contradicting "emits nothing and changes no state
even when a paragraph or list is open". -/
theorem c3_hash_line_counterexample :
    step ⟨false, true, ""⟩ "#x\n" = (["</p>\n"], some ⟨false, false, ""⟩) ∧
    (["</p>\n"], (some ⟨false, false, ""⟩ : Option MDState)) ≠
      (([] : List String), some (⟨false, true, ""⟩ : MDState)) :=
  ⟨by decide, by decide⟩

/-- C3 amended: a line matching none of the three classes and also not
starting with `#` is silently dropped: no emission, state unchanged.  (A line
such as `"#x"` still enters the heading branch by its leading `#` and first
closes any open block, as the counterexample and C10 show.) -/
theorem c3_amended_unmatched_line_no_op : ∀ (st : MDState) (line : String),
    strStarts line "#" = false → strStarts line "- " = false →
    strStarts line "* " = false → paragraphEligible line = false →
    step st line = ([], some st) := by
  intro st line h1 h2 h3 h4
  simp [step, h1, h2, h3, h4]

/-- Witness for C3 amended at `line = "123\n"` with an open list. -/
theorem c3_amended_unmatched_line_no_op_witness :
    strStarts "123\n" "#" = false ∧ strStarts "123\n" "- " = false ∧
    strStarts "123\n" "* " = false ∧ paragraphEligible "123\n" = false ∧
    step ⟨true, false, "ul"⟩ "123\n" = ([], some ⟨true, false, "ul"⟩) :=
  ⟨by decide, by decide, by decide, by decide,
    c3_amended_unmatched_line_no_op ⟨true, false, "ul"⟩ "123\n"
      (by decide) (by decide) (by decide) (by decide)⟩

/-- C4 counterexample: processing the non-whitespace line `"Hello\n"` with no
paragraph open writes `"<p>\n"` and then the content, so the emitted output
is `"<p>\nHello"`: a newline is inserted between the `<p>` tag and the
content, contradicting "no newline inserted between the tag and the
content". -/
theorem c4_newline_after_p_counterexample :
    (step initState "Hello\n").1 = ["<p>\n", "Hello"] ∧
    joinAll ["<p>\n", "Hello"] ≠ "<p>" ++ "Hello" := ⟨by decide, by decide⟩

/-- C4 amended: for every non-whitespace paragraph-eligible line processed
while no paragraph is open, the emitted output is any needed list-closing tag,
then the `<p>` tag followed by a newline, then immediately the transformed,
trimmed content; the paragraph flag is set. -/
theorem c4_amended_paragraph_opening : ∀ (st : MDState) (line : String),
    st.paragraph_started = false → paragraphEligible line = true →
    pyIsSpace line = false →
    (step st line).1 =
      (if st.list_started then ["</" ++ st.list_type ++ ">\n"] else []) ++
        ["<p>\n", process_line (pyStrip line)] ∧
    (step st line).2 = some ⟨false, true, st.list_type⟩ := by
  intro st line hp he hs
  obtain ⟨h1, h2, h3⟩ := eligible_excludes line he
  simp [step, h1, h2, h3, he, stepParagraph, hp, hs]

/-- Witness for C4 amended at `line = "Hello\n"` from the initial state. -/
theorem c4_amended_paragraph_opening_witness : initState.paragraph_started = false ∧
    paragraphEligible "Hello\n" = true ∧ pyIsSpace "Hello\n" = false ∧
    ((step initState "Hello\n").1 =
      (if initState.list_started then ["</" ++ initState.list_type ++ ">\n"] else []) ++
        ["<p>\n", process_line (pyStrip "Hello\n")] ∧
      (step initState "Hello\n").2 = some ⟨false, true, initState.list_type⟩) :=
  ⟨rfl, by decide, by decide,
    c4_amended_paragraph_opening initState "Hello\n" rfl (by decide) (by decide)⟩

/-- C5 counterexample: the line `" - one\n"` carries leading whitespace before
its `- ` marker; the prefix check runs on the raw line, so the line matches no
class and is silently dropped — it is not classified as a list item (no `<li>`
emission, no state change), contradicting "applied to the line after
trimming". -/
theorem c5_leading_whitespace_counterexample :
    step initState " - one\n" = ([], some initState) := by decide

/-- C5 amended: the list-item prefix check is applied to the raw line (leading
whitespace defeats it); for a line whose raw form starts with `- ` or `* `,
the line is then trimmed and the emitted item content is everything after the
2-character prefix of the trimmed line. -/
theorem c5_amended_list_item_content : ∀ (st : MDState) (line : String),
    (strStarts line "- " || strStarts line "* ") = true →
    ∃ pre, (step st line).1 =
      pre ++ ["<li>" ++ process_line ((pyStrip line).drop 2) ++ "</li>\n"] := by
  intro st line h
  have h0 := listStart_not_hash line h
  refine ⟨(if st.paragraph_started then ["</p>\n"] else []) ++
    (if st.list_started then [] else
      ["<" ++ (if strStarts (pyStrip line) "- " then "ul"
        else if strStarts (pyStrip line) "* " then "ol" else st.list_type) ++ ">\n"]), ?_⟩
  simp [step, h0, h, stepList, List.append_assoc]

/-- Witness for C5 amended at `line = "- one\n"` from the initial state. -/
theorem c5_amended_list_item_content_witness :
    (strStarts "- one\n" "- " || strStarts "- one\n" "* ") = true ∧
    ∃ pre, (step initState "- one\n").1 =
      pre ++ ["<li>" ++ process_line ((pyStrip "- one\n").drop 2) ++ "</li>\n"] :=
  ⟨by decide, c5_amended_list_item_content initState "- one\n" (by decide)⟩

/-- C6: converting the two-line document `"- one\n- two\n"` appends exactly
`"<ul>\n<li>one</li>\n<li>two</li>\n</ul>\n"`: one opening wrapper before the
first item and the end-of-document flush closing the list. -/
theorem c6_two_item_list_document : convert_document ["- one\n", "- two\n"] =
    some "<ul>\n<li>one</li>\n<li>two</li>\n</ul>\n" := by decide

/-- C7: `process_line "a[[foo]]b"` is exactly `"a"` followed by the
32-character lowercase MD5 hex digest of the bytes of `"foo"` followed by
`"b"`, with both delimiters removed (the digest computed by the RFC 1321
embedding equals the well-known value `acbd18db4cc2f85cedef654fccc4a4d8`). -/
theorem c7_md5_bracket_substitution : process_line "a[[foo]]b" =
    "a" ++ "acbd18db4cc2f85cedef654fccc4a4d8" ++ "b" := by decide

/-- C8: along every run of the converter — from the initial state, through the
state after each processed line, to the state after the end-of-document
flush — at most one of the list-open and paragraph-open flags is true. -/
theorem c8_at_most_one_block_open :
    ∀ lines : List String, (runTrace lines).all atMostOne = true := by
  intro lines
  unfold runTrace
  split
  · exact traceStates_all_atMostOne lines initState rfl
  · simp [List.all_append, traceStates_all_atMostOne lines initState rfl, atMostOne]

/-- C9: when at least two arguments are given but the input path is not an
existing file, the program writes a message naming that path to stderr, exits
with status 1, and appends nothing to the output sink. -/
theorem c9_missing_input_file :
    ∀ (args : List String) (isfile : String → Bool) (contents : List String),
    2 ≤ args.length → isfile (args.headD "") = false →
    main_model args isfile contents = ⟨1, ["Missing " ++ args.headD ""], []⟩ := by
  intro args isfile contents hlen hfile
  unfold main_model
  rw [if_neg (by omega)]
  dsimp only
  rw [hfile]
  simp

/-- Witness for C9 at `args = ["in.md", "out.html"]` with no file existing. -/
theorem c9_missing_input_file_witness :
    2 ≤ (["in.md", "out.html"] : List String).length ∧
    main_model ["in.md", "out.html"] (fun _ => false) [] =
      ⟨1, ["Missing " ++ (["in.md", "out.html"] : List String).headD ""], []⟩ :=
  ⟨by decide, c9_missing_input_file ["in.md", "out.html"] (fun _ => false) []
    (by decide) rfl⟩

/-- C10: every line starting with `#` first emits the closing tag of any open
list and the `</p>` of any open paragraph (in that order, `closeBlocks`), and
any state the step yields has both flags cleared, before any heading output is
considered. -/
theorem c10_hash_line_closes_blocks : ∀ (st : MDState) (line : String),
    strStarts line "#" = true →
    (∃ rest, (step st line).1 = closeBlocks st ++ rest) ∧
    (∀ st1, (step st line).2 = some st1 →
      st1.list_started = false ∧ st1.paragraph_started = false) := by
  intro st line h
  have hs : step st line = stepHeading st line := by
    unfold step; rw [h]; simp
  rw [hs]
  unfold stepHeading
  dsimp only
  constructor
  · split
    · exact ⟨[], by simp⟩
    · split
      · exact ⟨_, rfl⟩
      · exact ⟨[], by simp⟩
  · intro st1 hst1
    split at hst1
    · exact Option.noConfusion hst1
    · split at hst1 <;> (cases hst1; exact ⟨rfl, rfl⟩)

/-- Witness for C10 at `line = "# Hi\n"` with an open list. -/
theorem c10_hash_line_closes_blocks_witness : strStarts "# Hi\n" "#" = true ∧
    ((∃ rest, (step ⟨true, false, "ul"⟩ "# Hi\n").1 =
      closeBlocks ⟨true, false, "ul"⟩ ++ rest) ∧
    (∀ st1, (step ⟨true, false, "ul"⟩ "# Hi\n").2 = some st1 →
      st1.list_started = false ∧ st1.paragraph_started = false)) :=
  ⟨by decide, c10_hash_line_closes_blocks ⟨true, false, "ul"⟩ "# Hi\n" (by decide)⟩

end Md2Html
